import Mathlib

/-!
Verification of the node-relationship model and inference engine of
`nodes.py` (the semantic core of an astng/astroid-style static-analysis
library), via a shallow embedding of the relevant functions.

Python mutable state (the `path` list shared between an
`InferenceContext` and its clones) is modelled with an explicit store of
list-valued cells; a context holds the index of its cell, mirroring a
Python object reference.  Python exceptions are modelled with
`Option`/`Except`: `StopIteration` raised by `push` becomes `none`,
`NotFoundError`/`InferenceError` become `Except.error`.
-/

/-- A `(node, lookup name)` pair recorded on an inference path.  Nodes are
identified by numeric ids (Python compares them by object identity). -/
abbrev PathPair := Nat × Option String

/-- The store of mutable list cells.  `cells[r]` is the current contents of
the Python list object with reference `r`. -/
structure Store where
  cells : List (List PathPair)
deriving Repr, DecidableEq

/-- Read the list held by cell `r` (empty for a dangling reference). -/
def Store.read (s : Store) (r : Nat) : List PathPair :=
  (s.cells.get? r).getD []

/-- Overwrite the list held by cell `r`. -/
def Store.write (s : Store) (r : Nat) (v : List PathPair) : Store :=
  ⟨s.cells.set r v⟩

/-- Embedding of `InferenceContext` (`nodes.py`, `__slots__` at line 839):
`startingfrom`, `path` (here: the reference `pathRef` into the store),
`lookupname`, `callcontext`, `boundnode`.  `callcontext` and `boundnode`
are opaque to the claims and kept as numeric ids. -/
structure InferenceContext where
  startingfrom : Option Nat
  pathRef : Nat
  lookupname : Option String
  callcontext : Option Nat
  boundnode : Option Nat
deriving Repr, DecidableEq

/-- Embedding of `InferenceContext.__init__(node, path=None)`: allocates a
fresh empty list for `path` and nulls the remaining slots. -/
def InferenceContext.init (s : Store) (node : Option Nat) :
    Store × InferenceContext :=
  (⟨s.cells ++ [[]]⟩,
   { startingfrom := node, pathRef := s.cells.length,
     lookupname := none, callcontext := none, boundnode := none })

/-- Embedding of `InferenceContext.__init__(node, path)` with an explicit
`path` argument: the context stores the given list object (by reference,
exactly as Python binds `self.path = path`). -/
def InferenceContext.initWithPath (node : Option Nat) (pathRef : Nat) :
    InferenceContext :=
  { startingfrom := node, pathRef := pathRef,
    lookupname := none, callcontext := none, boundnode := none }

/-- Embedding of `InferenceContext.push` (`nodes.py` lines 851-855):
if `(node, self.lookupname)` is already in `self.path`, raise
`StopIteration` (modelled as `none`: the enclosing generator signals "no
further results", the store is untouched); otherwise append the pair to
the `path` list (in place, so every context sharing the list sees it). -/
def InferenceContext.push (c : InferenceContext) (s : Store) (node : Nat) :
    Option Store :=
  let name := c.lookupname
  if (node, name) ∈ s.read c.pathRef then
    none
  else
    some (s.write c.pathRef (s.read c.pathRef ++ [(node, name)]))

/-- Embedding of `InferenceContext.clone` (`nodes.py` lines 860-865):
builds `InferenceContext(self.startingfrom, self.path)` — passing the
very same `path` list object, not a copy — then copies `callcontext`
and `boundnode` over (`lookupname` stays unset, per the `XXX` comment). -/
def InferenceContext.clone (c : InferenceContext) : InferenceContext :=
  let cl := InferenceContext.initWithPath c.startingfrom c.pathRef
  { cl with callcontext := c.callcontext, boundnode := c.boundnode }

/-- A value produced by inference: the `YES` sentinel or an ordinary
inferred node (identified by a numeric id). -/
inductive IValue where
  | YES
  | node (n : Nat)
deriving Repr, DecidableEq

/-- How one candidate statement's own `stmt.infer(context)` generator
behaves: the values it yields, and whether it then finishes normally,
raises `UnresolvableName`, or raises `InferenceError`.  This abstracts
the per-node-kind inference that `_infer_stmts` delegates to. -/
inductive InferOutcome where
  | ok (vals : List IValue)
  | unresolvable (vals : List IValue)
  | inferenceError (vals : List IValue)
deriving Repr, DecidableEq

/-- A candidate binding statement handed to `_infer_stmts`: either the
`YES` sentinel itself (the `stmt is YES` test) or a node whose own
inference has the given outcome. -/
inductive Stmt where
  | yesStmt
  | stmt (outcome : InferOutcome)
deriving Repr, DecidableEq

/-- The loop of `_infer_stmts` (`nodes.py` lines 878-892), threading the
`infered` flag.  Returns the full sequence of yielded values together
with the final value of `infered`:
`stmt is YES` yields `YES` and sets `infered = True`;
a normally-finishing or `UnresolvableName`-raising candidate contributes
the values it yielded before stopping (each yielded value sets
`infered = True`) and the loop continues;
an `InferenceError`-raising candidate additionally yields `YES` and sets
`infered = True`. -/
def inferStmtsAux : List Stmt → Bool → List IValue × Bool
  | [], infered => ([], infered)
  | Stmt.yesStmt :: rest, _ =>
      let r := inferStmtsAux rest true
      (IValue.YES :: r.1, r.2)
  | Stmt.stmt (InferOutcome.ok vals) :: rest, infered =>
      let r := inferStmtsAux rest (infered || !vals.isEmpty)
      (vals ++ r.1, r.2)
  | Stmt.stmt (InferOutcome.unresolvable vals) :: rest, infered =>
      let r := inferStmtsAux rest (infered || !vals.isEmpty)
      (vals ++ r.1, r.2)
  | Stmt.stmt (InferOutcome.inferenceError vals) :: rest, _ =>
      let r := inferStmtsAux rest true
      (vals ++ IValue.YES :: r.1, r.2)

/-- Embedding of `_infer_stmts` (`nodes.py` lines 867-894): run the loop
with `infered = False`; if after all candidates `infered` is still
`False` the call raises `InferenceError` (and, having yielded nothing,
is modelled as `Except.error`), otherwise the yielded sequence is the
result. -/
def inferStmts (stmts : List Stmt) : Except Unit (List IValue) :=
  let r := inferStmtsAux stmts false
  if r.2 then Except.ok r.1 else Except.error ()

/-- The sequence of values `_infer_stmts` yields (independent of the
incoming `infered` flag). -/
def inferStmtsYields (stmts : List Stmt) : List IValue :=
  (inferStmtsAux stmts false).1

theorem inferStmtsAux_fst_congr (stmts : List Stmt) (b b' : Bool) :
    (inferStmtsAux stmts b).1 = (inferStmtsAux stmts b').1 := by
  induction stmts generalizing b b' with
  | nil => rfl
  | cons s rest ih =>
    cases s with
    | yesStmt => simp [inferStmtsAux]
    | stmt o =>
      cases o with
      | ok vals => simpa [inferStmtsAux] using ih _ _
      | unresolvable vals => simpa [inferStmtsAux] using ih _ _
      | inferenceError vals => simp [inferStmtsAux]

theorem inferStmtsAux_snd_eq (stmts : List Stmt) (b : Bool) :
    (inferStmtsAux stmts b).2 = (b || !(inferStmtsAux stmts b).1.isEmpty) := by
  induction stmts generalizing b with
  | nil => simp [inferStmtsAux]
  | cons s rest ih =>
    cases s with
    | yesStmt => simp [inferStmtsAux, ih]
    | stmt o =>
      cases o with
      | ok vals =>
        simp only [inferStmtsAux, ih]
        cases vals <;> simp
      | unresolvable vals =>
        simp only [inferStmtsAux, ih]
        cases vals <;> simp
      | inferenceError vals => simp [inferStmtsAux, ih]

/-- C1: in `_infer_stmts`, a candidate whose inference raises
`UnresolvableName` (having yielded nothing) is skipped silently and the
next candidates are processed exactly as if it were absent; a candidate
whose inference raises `InferenceError` makes the call yield the `YES`
sentinel and counts as success (the overall call returns its yields
rather than failing); and the whole call raises `InferenceError` exactly
when no value was ever yielded over all candidates. -/
theorem c1_infer_stmts_error_handling (rest stmts : List Stmt) (vals : List IValue) :
    (inferStmts (Stmt.stmt (InferOutcome.unresolvable []) :: rest) = inferStmts rest) ∧
    (inferStmts (Stmt.stmt (InferOutcome.inferenceError vals) :: rest)
        = Except.ok (vals ++ IValue.YES :: (inferStmtsAux rest true).1)) ∧
    (inferStmts stmts = Except.error () ↔ inferStmtsYields stmts = []) := by
  refine ⟨rfl, ?_, ?_⟩
  · simp [inferStmts, inferStmtsAux, inferStmtsAux_snd_eq rest true]
  · rw [inferStmts, inferStmtsYields, inferStmtsAux_snd_eq stmts false]
    rcases h : (inferStmtsAux stmts false).1 with _ | ⟨v, vs⟩ <;> simp [h]

/-- Witness for C1 at concrete inputs: an empty candidate list raises
`InferenceError`, via the third conjunct of the theorem. -/
theorem c1_infer_stmts_error_handling_witness :
    inferStmts [] = Except.error () :=
  (c1_infer_stmts_error_handling [] [] []).2.2.mpr rfl

/-- C2: `InferenceContext.push` on a context whose path already contains
`(node, lookupname)` signals `StopIteration` (end of the lazy sequence,
modelled as `none`) without touching the store, hence leaving the path
unchanged; otherwise it appends `(node, lookupname)` to the path list. -/
theorem c2_push_cycle_detection (s : Store) (c : InferenceContext) (node : Nat)
    (hvalid : c.pathRef < s.cells.length) :
    ((node, c.lookupname) ∈ s.read c.pathRef → c.push s node = none) ∧
    ((node, c.lookupname) ∉ s.read c.pathRef →
      ∃ s', c.push s node = some s' ∧
        s'.read c.pathRef = s.read c.pathRef ++ [(node, c.lookupname)]) := by
  constructor
  · intro hmem
    simp [InferenceContext.push, hmem]
  · intro hmem
    refine ⟨s.write c.pathRef (s.read c.pathRef ++ [(node, c.lookupname)]), ?_, ?_⟩
    · simp [InferenceContext.push, hmem]
    · simp only [Store.read, Store.write]
      rw [List.get?_eq_getElem?, List.getElem?_set_eq_of_lt _ hvalid]
      simp

/-- Witness for C2: on a store holding the one-cell path `[(5, none)]`,
pushing node 5 with lookup name unset stops, and pushing node 7 appends. -/
theorem c2_push_cycle_detection_witness :
    (InferenceContext.mk none 0 none none none).push ⟨[[(5, none)]]⟩ 5 = none ∧
    ∃ s', (InferenceContext.mk none 0 none none none).push ⟨[[(5, none)]]⟩ 7 = some s' ∧
      s'.read 0 = [(5, none), (7, none)] := by
  have h := c2_push_cycle_detection ⟨[[(5, none)]]⟩
    (InferenceContext.mk none 0 none none none) 5 (by decide)
  have h7 := c2_push_cycle_detection ⟨[[(5, none)]]⟩
    (InferenceContext.mk none 0 none none none) 7 (by decide)
  refine ⟨h.1 (by decide), ?_⟩
  obtain ⟨s', hs', hread⟩ := h7.2 (by decide)
  exact ⟨s', hs', by rw [hread]; rfl⟩

/-- C3 counterexample: `clone` passes `self.path` to the `InferenceContext`
constructor by reference, without copying it.  Starting from a freshly
initialised context (empty path in cell 0), a push on the clone appends
`(7, none)` to the shared list, so the original context's path — read
through its own `pathRef` — changes from `[]` to `[(7, none)]`.  This
refutes the claim that a push on the clone leaves the original's path
unchanged. -/
theorem c3_clone_counterexample :
    ((InferenceContext.init ⟨[]⟩ none).2.clone).push (InferenceContext.init ⟨[]⟩ none).1 7
      = some ⟨[[(7, none)]]⟩ ∧
    Store.read ⟨[[(7, none)]]⟩ (InferenceContext.init ⟨[]⟩ none).2.pathRef
      ≠ Store.read (InferenceContext.init ⟨[]⟩ none).1 (InferenceContext.init ⟨[]⟩ none).2.pathRef := by
  decide

/-- C3 amended: `clone` returns a context that shares the original's
`path` list (same reference) rather than a shallow copy.  Consequently
the clone detects as already-visited exactly the pairs present in the
original's path, and a successful push on the clone appends to the
original's path as well (the caller's visited set is polluted).  The
clone's `lookupname` is reset, so the pair it tests and appends is
`(node, none)`. -/
theorem c3_clone_shares_path (s : Store) (c : InferenceContext) (node : Nat)
    (hvalid : c.pathRef < s.cells.length) :
    c.clone.pathRef = c.pathRef ∧
    ((node, c.clone.lookupname) ∈ s.read c.pathRef → c.clone.push s node = none) ∧
    ((node, c.clone.lookupname) ∉ s.read c.pathRef →
      ∃ s', c.clone.push s node = some s' ∧
        s'.read c.pathRef = s.read c.pathRef ++ [(node, none)]) := by
  have hc : c.clone.pathRef = c.pathRef := rfl
  have hl : c.clone.lookupname = none := rfl
  have h := c2_push_cycle_detection s c.clone node (hc ▸ hvalid)
  rw [hc, hl] at h
  exact ⟨rfl, h.1, h.2⟩

/-- Witness for C3 amended, on the store holding the one-cell path
`[(5, none)]`: the clone of a context over cell 0 stops on re-pushing
node 5, and pushing node 7 on the clone extends the original's path. -/
theorem c3_clone_shares_path_witness :
    (InferenceContext.mk none 0 (some "x") none none).clone.push ⟨[[(5, none)]]⟩ 5 = none ∧
    ∃ s', (InferenceContext.mk none 0 (some "x") none none).clone.push ⟨[[(5, none)]]⟩ 7 = some s' ∧
      s'.read 0 = [(5, none), (7, none)] := by
  have h5 := c3_clone_shares_path ⟨[[(5, none)]]⟩
    (InferenceContext.mk none 0 (some "x") none none) 5 (by decide)
  have h7 := c3_clone_shares_path ⟨[[(5, none)]]⟩
    (InferenceContext.mk none 0 (some "x") none none) 7 (by decide)
  refine ⟨h5.2.1 (by decide), ?_⟩
  obtain ⟨s', hs', hread⟩ := h7.2.2 (by decide)
  exact ⟨s', hs', by rw [hread]; rfl⟩

/-- Node kinds for the tree-walking claims: a module, an ordinary
assignment statement, a function definition, and a function body block
(the `code` child of a `Function` node). -/
inductive NKind where
  | module
  | assign
  | function
  | body
deriving Repr, DecidableEq

/-- A syntax tree: a node kind, a source line, and the ordered list of
children (`getChildNodes()`). -/
inductive PTree where
  | node (kind : NKind) (line : Nat) (children : List PTree)

/-- The kind of a tree's root node. -/
def PTree.kind : PTree → NKind
  | .node k _ _ => k

/-- Whether a child matches the `skip_klass` argument of `nodes_of_class`
(`None` means nothing is skipped, matching `skip_klass is not None`). -/
def skipMatches (skip : Option (NKind → Bool)) (t : PTree) : Bool :=
  match skip with
  | none => false
  | some f => f t.kind

mutual

/-- Embedding of `NodeNG.nodes_of_class` (`nodes.py` lines 204-215):
yield `self` when it is an instance of `klass`, then for each child that
does not match `skip_klass`, recursively yield that child's matches, in
depth-first pre-order.  `isinstance` tests are modelled as predicates on
the node kind. -/
def nodesOfClass (klass : NKind → Bool) (skip : Option (NKind → Bool)) :
    PTree → List PTree
  | .node k line children =>
    (if klass k then [PTree.node k line children] else []) ++
      nodesOfClassChildren klass skip children

/-- The `for child_node in self.getChildNodes()` loop of
`nodes_of_class`: skipped children are not entered at all. -/
def nodesOfClassChildren (klass : NKind → Bool) (skip : Option (NKind → Bool)) :
    List PTree → List PTree
  | [] => []
  | c :: cs =>
    (if skipMatches skip c then [] else nodesOfClass klass skip c) ++
      nodesOfClassChildren klass skip cs

end

/-- C4: on a module holding two top-level statements (lines 1 and 2) and
a function definition (line 3) whose body block holds its own statement
(line 4), `nodes_of_class` with a match set selecting assignments and
function definitions and a skip set excluding function body blocks
yields exactly the two top-level statements and the function definition
node, in depth-first pre-order — and not the statement nested inside
the function. -/
theorem c4_nodes_of_class_skip :
    nodesOfClass (fun k => k == NKind.assign || k == NKind.function)
      (some (fun k => k == NKind.body))
      (PTree.node NKind.module 0
        [PTree.node NKind.assign 1 [],
         PTree.node NKind.assign 2 [],
         PTree.node NKind.function 3
           [PTree.node NKind.body 3 [PTree.node NKind.assign 4 []]]])
      = [PTree.node NKind.assign 1 [],
         PTree.node NKind.assign 2 [],
         PTree.node NKind.function 3
           [PTree.node NKind.body 3 [PTree.node NKind.assign 4 []]]] := by
  rfl

/-- A class-definition node as seen by `Instance.getattr`: a numeric id
(so the class node itself can appear among returned values), plus the
two attribute lookups it exposes.  Modelled from the spec: the wrapped
class's `instance_attr` (its instance-level attribute table) and its own
class-level `getattr` live in the scoped-nodes module, outside this
file, and are represented as association tables from attribute name to
the list of values the lookup returns (`none` meaning the lookup raises
`NotFoundError`). -/
structure ClassNode where
  cid : Nat
  instanceAttrs : List (String × List Nat)
  classAttrs : List (String × List Nat)
deriving Repr, DecidableEq

/-- An attribute value returned by `Instance.getattr`: either a reference
to a class node (as returned for `__class__`) or an opaque attribute
value from one of the tables. -/
inductive AttrVal where
  | classRef (cid : Nat)
  | val (n : Nat)
deriving Repr, DecidableEq

/-- Embedding of `Instance.getattr` (`nodes.py` lines 729-741) for an
instance wrapping `cls`: try `self._proxied.instance_attr(name)`; on
`NotFoundError`, return `[self._proxied]` when `name == '__class__'`,
re-raise `NotFoundError` when `name == '__name__'`, fall back to
`self._proxied.getattr(name)` when `lookupclass` is set, and otherwise
raise `NotFoundError`. -/
def instanceGetattr (cls : ClassNode) (name : String) (lookupclass : Bool) :
    Except Unit (List AttrVal) :=
  match cls.instanceAttrs.lookup name with
  | some vals => Except.ok (vals.map AttrVal.val)
  | none =>
    if name == "__class__" then Except.ok [AttrVal.classRef cls.cid]
    else if name == "__name__" then Except.error ()
    else if lookupclass then
      match cls.classAttrs.lookup name with
      | some vals => Except.ok (vals.map AttrVal.val)
      | none => Except.error ()
    else Except.error ()

/-- C5: for every instance whose wrapped class's instance-level attribute
table does not contain the queried name, `getattr('__name__')` raises
`NotFoundError` — even when the class-level table defines `__name__`
(the class tables are universally quantified here, so in particular when
they contain `__name__`) — while `getattr('__class__')` succeeds and
returns the wrapped class node itself; neither answer depends on the
`lookupclass` flag or the class-level table, so the class-level fallback
is never consulted for these two names. -/
theorem c5_instance_getattr_special_names (cls : ClassNode) (lookupclass : Bool)
    (hname : cls.instanceAttrs.lookup "__name__" = none)
    (hclass : cls.instanceAttrs.lookup "__class__" = none) :
    instanceGetattr cls "__name__" lookupclass = Except.error () ∧
    instanceGetattr cls "__class__" lookupclass
      = Except.ok [AttrVal.classRef cls.cid] := by
  constructor
  · simp [instanceGetattr, hname]
  · simp [instanceGetattr, hclass]

/-- Witness for C5: a class that defines `__name__` at class level (value
id 9) but has an empty instance-level table; `__name__` still raises and
`__class__` still returns the class, with `lookupclass = true`. -/
theorem c5_instance_getattr_special_names_witness :
    instanceGetattr ⟨3, [], [("__name__", [9])]⟩ "__name__" true = Except.error () ∧
    instanceGetattr ⟨3, [], [("__name__", [9])]⟩ "__class__" true
      = Except.ok [AttrVal.classRef 3] :=
  c5_instance_getattr_special_names ⟨3, [], [("__name__", [9])]⟩ true rfl rfl

/-- The `else_` clause of a loop/try-finally statement, reduced to the
two line queries `elsed_block_range` makes on it. -/
structure ElseClause where
  sourceLine : Int
  lastSourceLine : Int
deriving Repr, DecidableEq

/-- A statement node as consumed by `elsed_block_range`: its own header
source line, its last source line, and an optional `else_` clause
(Python's `if node.else_:` truthiness test on a node-or-None slot). -/
structure ElsedNode where
  sourceLine : Int
  lastSourceLine : Int
  else_ : Option ElseClause
deriving Repr, DecidableEq

/-- Python's `last or default` for the `last=None` parameter: `None` and
`0` are both falsy, so the default is used for either. -/
def pyOrLine (last : Option Int) (default : Int) : Int :=
  match last with
  | none => default
  | some l => if l = 0 then default else l

/-- Embedding of `elsed_block_range` (`nodes.py` lines 283-293): `(L, L)`
on the header line; with an `else` clause, `(L, else.last_source_line)`
at or after the clause's start and `(L, else.source_line - 1)` before
it; otherwise `(L, last or node.last_source_line())` — note the Python
truthiness in the fallback. -/
def elsed_block_range (node : ElsedNode) (lineno : Int) (last : Option Int) :
    Int × Int :=
  if lineno = node.sourceLine then (lineno, lineno)
  else
    match node.else_ with
    | some e =>
      if lineno ≥ e.sourceLine then (lineno, e.lastSourceLine)
      else (lineno, e.sourceLine - 1)
    | none => (lineno, pyOrLine last node.lastSourceLine)

/-- The fallback rule exactly as the claim words it: the caller-supplied
`last` value when one is given, the node's own last source line
otherwise. -/
def claimedFallback (last : Option Int) (default : Int) : Int :=
  last.getD default

/-- `elsed_block_range` as the claim describes it, differing from the
code only in the fallback rule. -/
def elsed_block_range_claimed (node : ElsedNode) (lineno : Int)
    (last : Option Int) : Int × Int :=
  if lineno = node.sourceLine then (lineno, lineno)
  else
    match node.else_ with
    | some e =>
      if lineno ≥ e.sourceLine then (lineno, e.lastSourceLine)
      else (lineno, e.sourceLine - 1)
    | none => (lineno, claimedFallback last node.lastSourceLine)

/-- C6 counterexample: on a node with header line 1, last line 5 and no
`else` clause, queried at line 2 with the caller-supplied fallback
`last = 0`, the code returns `(2, 5)` — `0` is falsy, so
`last or node.last_source_line()` ignores it — while the claim's rule
("the fallback is the caller-supplied last value") demands `(2, 0)`. -/
theorem c6_elsed_block_range_counterexample :
    elsed_block_range ⟨1, 5, none⟩ 2 (some 0) = (2, 5) ∧
    elsed_block_range_claimed ⟨1, 5, none⟩ 2 (some 0) = (2, 0) ∧
    ((2 : Int), (5 : Int)) ≠ ((2 : Int), (0 : Int)) := by
  refine ⟨rfl, rfl, by decide⟩

/-- C6 amended: the default block-range rule behaves as the claim states
in every case, except that the fallback end is the caller-supplied
`last` value only when that value is given and nonzero (Python
truthiness of `last or node.last_source_line()`); when `last` is absent
or `0`, the node's own last source line is used. -/
theorem c6_elsed_block_range (n : ElsedNode) (L : Int) (last : Option Int) :
    (L = n.sourceLine → elsed_block_range n L last = (L, L)) ∧
    (L ≠ n.sourceLine → ∀ e, n.else_ = some e →
      (e.sourceLine ≤ L → elsed_block_range n L last = (L, e.lastSourceLine)) ∧
      (L < e.sourceLine → elsed_block_range n L last = (L, e.sourceLine - 1))) ∧
    (L ≠ n.sourceLine → n.else_ = none →
      (last = none → elsed_block_range n L last = (L, n.lastSourceLine)) ∧
      (last = some 0 → elsed_block_range n L last = (L, n.lastSourceLine)) ∧
      (∀ l, last = some l → l ≠ 0 → elsed_block_range n L last = (L, l))) := by
  refine ⟨?_, ?_, ?_⟩
  · intro h
    simp [elsed_block_range, h]
  · intro h e he
    constructor
    · intro hle
      simp [elsed_block_range, h, he, hle]
    · intro hlt
      rw [elsed_block_range]
      simp [h, he, not_le.mpr hlt]
  · intro h he
    refine ⟨?_, ?_, ?_⟩
    · intro hl
      simp [elsed_block_range, h, he, hl, pyOrLine]
    · intro hl
      simp [elsed_block_range, h, he, hl, pyOrLine]
    · intro l hl hne
      simp [elsed_block_range, h, he, hl, pyOrLine, hne]

/-- Witness for C6 amended, exercising all three top-level cases on a
while-style node with header line 1, last line 9 and an `else` clause
spanning lines 6-9 (or none for the fallback cases). -/
theorem c6_elsed_block_range_witness :
    elsed_block_range ⟨1, 9, some ⟨6, 9⟩⟩ 1 none = (1, 1) ∧
    elsed_block_range ⟨1, 9, some ⟨6, 9⟩⟩ 7 none = (7, 9) ∧
    elsed_block_range ⟨1, 9, some ⟨6, 9⟩⟩ 3 none = (3, 5) ∧
    elsed_block_range ⟨1, 9, none⟩ 3 none = (3, 9) ∧
    elsed_block_range ⟨1, 9, none⟩ 3 (some 4) = (3, 4) := by
  refine ⟨(c6_elsed_block_range ⟨1, 9, some ⟨6, 9⟩⟩ 1 none).1 rfl,
    ((c6_elsed_block_range ⟨1, 9, some ⟨6, 9⟩⟩ 7 none).2.1 (by decide) ⟨6, 9⟩ rfl).1 (by decide),
    ((c6_elsed_block_range ⟨1, 9, some ⟨6, 9⟩⟩ 3 none).2.1 (by decide) ⟨6, 9⟩ rfl).2 (by decide),
    ((c6_elsed_block_range ⟨1, 9, none⟩ 3 none).2.2 (by decide) rfl).1 rfl,
    ((c6_elsed_block_range ⟨1, 9, none⟩ 3 (some 4)).2.2 (by decide) rfl).2.2 4 rfl (by decide)⟩

/-- A node as consumed by `NodeNG.nearest`: its identity, the identity of
its tree's root (`node.root()`), and its source line
(`node.source_line()`). -/
structure SNode where
  nid : Nat
  rootId : Nat
  line : Nat
deriving Repr, DecidableEq

/-- The `for node in nodes` loop of `NodeNG.nearest` (`nodes.py` lines
141-157), carrying the running `nearest = None, 0` accumulator: a
candidate from a different tree fires the `assert` (modelled as
`Except.error`); a candidate whose line exceeds `mylineno` breaks the
loop; a candidate whose line beats the accumulator's line replaces it. -/
def nearestAux (myroot mylineno : Nat) :
    List SNode → Option SNode × Nat → Except Unit (Option SNode)
  | [], best => Except.ok best.1
  | node :: rest, best =>
    if node.rootId ≠ myroot then Except.error ()
    else if node.line > mylineno then Except.ok best.1
    else if node.line > best.2 then
      nearestAux myroot mylineno rest (some node, node.line)
    else nearestAux myroot mylineno rest best

/-- Embedding of `NodeNG.nearest`: run the loop with the initial
accumulator `(None, 0)` and return the accumulated node. -/
def nearest (self : SNode) (nodes : List SNode) : Except Unit (Option SNode) :=
  nearestAux self.rootId self.line nodes (none, 0)

theorem nearestAux_spec (myroot mylineno : Nat) (nodes : List SNode) :
    ∀ best : Option SNode × Nat,
    (∀ n ∈ nodes, n.rootId = myroot) →
    nodes.Pairwise (fun a b => a.line ≤ b.line) →
    ∃ r, nearestAux myroot mylineno nodes best = Except.ok r ∧
      ((r = best.1 ∧ ∀ n ∈ nodes, n.line ≤ mylineno → n.line ≤ best.2) ∨
       (∃ m, r = some m ∧ m ∈ nodes ∧ best.2 < m.line ∧ m.line ≤ mylineno ∧
         ∀ n ∈ nodes, n.line ≤ mylineno → n.line ≤ m.line)) := by
  induction nodes with
  | nil =>
    intro best _ _
    exact ⟨best.1, rfl, Or.inl ⟨rfl, by simp⟩⟩
  | cons node rest ih =>
    intro best hroot hsorted
    have hr : node.rootId = myroot := hroot node (by simp)
    have hroot' : ∀ n ∈ rest, n.rootId = myroot := fun n hn =>
      hroot n (List.mem_cons_of_mem _ hn)
    have hle : ∀ b ∈ rest, node.line ≤ b.line := (List.pairwise_cons.mp hsorted).1
    have hsorted' := (List.pairwise_cons.mp hsorted).2
    rw [nearestAux, if_neg (not_not_intro hr)]
    by_cases hbreak : node.line > mylineno
    · rw [if_pos hbreak]
      refine ⟨best.1, rfl, Or.inl ⟨rfl, ?_⟩⟩
      intro n hn hq
      rcases List.mem_cons.mp hn with h | h
      · subst h; omega
      · have := hle n h; omega
    · rw [if_neg hbreak]
      by_cases hgt : node.line > best.2
      · rw [if_pos hgt]
        obtain ⟨r, hrec, hcase⟩ := ih (some node, node.line) hroot' hsorted'
        refine ⟨r, hrec, Or.inr ?_⟩
        rcases hcase with ⟨hre, hall⟩ | ⟨m, hrm, hmem, hlt, hml, hall⟩
        · refine ⟨node, hre, List.mem_cons_self _ _, hgt, by omega, ?_⟩
          intro n hn hq
          rcases List.mem_cons.mp hn with h | h
          · subst h; omega
          · exact hall n h hq
        · refine ⟨m, hrm, List.mem_cons_of_mem _ hmem, ?_, hml, ?_⟩
          · have : node.line < m.line := hlt
            omega
          · intro n hn hq
            rcases List.mem_cons.mp hn with h | h
            · have : node.line < m.line := hlt
              subst h; omega
            · exact hall n h hq
      · rw [if_neg hgt]
        obtain ⟨r, hrec, hcase⟩ := ih best hroot' hsorted'
        refine ⟨r, hrec, ?_⟩
        rcases hcase with ⟨hre, hall⟩ | ⟨m, hrm, hmem, hlt, hml, hall⟩
        · refine Or.inl ⟨hre, ?_⟩
          intro n hn hq
          rcases List.mem_cons.mp hn with h | h
          · subst h; omega
          · exact hall n h hq
        · refine Or.inr ⟨m, hrm, List.mem_cons_of_mem _ hmem, hlt, hml, ?_⟩
          intro n hn hq
          rcases List.mem_cons.mp hn with h | h
          · subst h; omega
          · exact hall n h hq

/-- C7 counterexample: a candidate at source line 0 from the same tree
qualifies under the claim (its line does not exceed the caller's line
5), yet `nearest` returns `None`, because the accumulator starts at
`nearest = None, 0` and is only replaced on a strictly greater line.
This refutes the claim that the greatest-line candidate not exceeding
the caller's line is returned. -/
theorem c7_nearest_counterexample :
    nearest ⟨0, 0, 5⟩ [⟨1, 0, 0⟩] = Except.ok none ∧
    (SNode.mk 1 0 0).rootId = (SNode.mk 0 0 5).rootId ∧
    (SNode.mk 1 0 0).line ≤ (SNode.mk 0 0 5).line := by
  exact ⟨rfl, rfl, by decide⟩

/-- C7 amended: for candidates from the same tree supplied in
non-decreasing source-line order, `nearest` returns a candidate with
the greatest *positive* source line not exceeding the caller's source
line, and returns `None` when no candidate has a positive line that
does not exceed it (in particular, line-0 candidates are never
returned). -/
theorem c7_nearest_greatest (self : SNode) (nodes : List SNode)
    (hroot : ∀ n ∈ nodes, n.rootId = self.rootId)
    (hsorted : nodes.Pairwise (fun a b => a.line ≤ b.line)) :
    ∃ r, nearest self nodes = Except.ok r ∧
      ((r = none ∧ ∀ n ∈ nodes, ¬(0 < n.line ∧ n.line ≤ self.line)) ∨
       (∃ m, r = some m ∧ m ∈ nodes ∧ 0 < m.line ∧ m.line ≤ self.line ∧
         ∀ n ∈ nodes, n.line ≤ self.line → n.line ≤ m.line)) := by
  obtain ⟨r, hrec, hcase⟩ :=
    nearestAux_spec self.rootId self.line nodes (none, 0) hroot hsorted
  refine ⟨r, hrec, ?_⟩
  rcases hcase with ⟨hre, hall⟩ | ⟨m, hrm, hmem, hlt, hml, hall⟩
  · refine Or.inl ⟨hre, ?_⟩
    intro n hn hq
    have := hall n hn hq.2
    omega
  · exact Or.inr ⟨m, hrm, hmem, hlt, hml, hall⟩

/-- Witness for C7 amended: among same-tree candidates at lines 2, 4, 7
with the caller at line 5, the returned candidate is the one at line 4. -/
theorem c7_nearest_greatest_witness :
    ∃ r, nearest ⟨0, 0, 5⟩ [⟨1, 0, 2⟩, ⟨2, 0, 4⟩, ⟨3, 0, 7⟩] = Except.ok r ∧
      r = some ⟨2, 0, 4⟩ := by
  have hc : nearest ⟨0, 0, 5⟩ [⟨1, 0, 2⟩, ⟨2, 0, 4⟩, ⟨3, 0, 7⟩]
      = Except.ok (some ⟨2, 0, 4⟩) := by rfl
  obtain ⟨r, hrec, _⟩ := c7_nearest_greatest ⟨0, 0, 5⟩
    [⟨1, 0, 2⟩, ⟨2, 0, 4⟩, ⟨3, 0, 7⟩] (by decide) (by decide)
  exact ⟨r, hrec, Except.ok.inj (hrec.symm.trans hc)⟩

/-- A node record in the tree arena used by the sibling queries: its
`is_statement` flag, its `parent` (an arena index, or `none` for the
root), and `nodes`, the ordered statement children stored on block
nodes (arena indices, in source order). -/
structure BNode where
  isStatement : Bool
  parent : Option Nat
  nodes : List Nat
deriving Repr, DecidableEq

/-- The `while not self.is_statement: self = self.parent` loop shared by
`next_sibling` and `previous_sibling`, with fuel bounding the parent
walk (the parent chain of a well-formed tree is finite); ill-formed
configurations (dangling index, missing parent, fuel exhausted) give
`none`. -/
def climbToStatement (arena : List BNode) : Nat → Nat → Option Nat
  | 0, _ => none
  | fuel + 1, i =>
    match arena.get? i with
    | none => none
    | some nd =>
      if nd.isStatement then some i
      else
        match nd.parent with
        | none => none
        | some p => climbToStatement arena fuel p

/-- Embedding of `NodeNG.next_sibling` (`nodes.py` lines 120-129): climb
to the enclosing statement, take `index = self.parent.nodes.index(self)`
and return `self.parent.nodes[index+1]`, with the `IndexError` at the
end of the list caught and turned into `None`.  The error paths Python
would raise on ill-formed trees (`AttributeError`, `ValueError`) are
collapsed to `none`; the claims only exercise well-formed trees. -/
def nextSibling (arena : List BNode) (i : Nat) : Option Nat :=
  match climbToStatement arena (arena.length + 1) i with
  | none => none
  | some j =>
    match arena.get? j with
    | none => none
    | some nd =>
      match nd.parent with
      | none => none
      | some p =>
        match arena.get? p with
        | none => none
        | some pnd =>
          match pnd.nodes.indexOf? j with
          | none => none
          | some idx => pnd.nodes.get? (idx + 1)

/-- Embedding of `NodeNG.previous_sibling` (`nodes.py` lines 131-139):
same climb and index computation, returning `self.parent.nodes[index-1]`
when `index > 0` and `None` otherwise. -/
def previousSibling (arena : List BNode) (i : Nat) : Option Nat :=
  match climbToStatement arena (arena.length + 1) i with
  | none => none
  | some j =>
    match arena.get? j with
    | none => none
    | some nd =>
      match nd.parent with
      | none => none
      | some p =>
        match arena.get? p with
        | none => none
        | some pnd =>
          match pnd.nodes.indexOf? j with
          | none => none
          | some idx => if idx > 0 then pnd.nodes.get? (idx - 1) else none

/-- C8: for statements `s0, s1, s2` stored, in source order, as the
`nodes` sequence of their common parent block, sibling navigation is
inverse along the sequence: `s1.next_sibling() == s2`,
`s1.previous_sibling() == s0`, `s0.previous_sibling() == None` and
`s2.next_sibling() == None`. -/
theorem c8_sibling_navigation (arena : List BNode) (b s0 s1 s2 : Nat)
    (bn n0 n1 n2 : BNode)
    (hb : arena.get? b = some bn) (hbn : bn.nodes = [s0, s1, s2])
    (h0 : arena.get? s0 = some n0) (h0s : n0.isStatement = true)
    (h0p : n0.parent = some b)
    (h1 : arena.get? s1 = some n1) (h1s : n1.isStatement = true)
    (h1p : n1.parent = some b)
    (h2 : arena.get? s2 = some n2) (h2s : n2.isStatement = true)
    (h2p : n2.parent = some b)
    (hd01 : s0 ≠ s1) (hd02 : s0 ≠ s2) (hd12 : s1 ≠ s2) :
    nextSibling arena s1 = some s2 ∧
    previousSibling arena s1 = some s0 ∧
    previousSibling arena s0 = none ∧
    nextSibling arena s2 = none := by
  have hclimb : ∀ s n, arena.get? s = some n → n.isStatement = true →
      climbToStatement arena (arena.length + 1) s = some s := by
    intro s n hs hstmt
    have hs' : arena[s]? = some n := by simpa using hs
    simp [climbToStatement, hs', hstmt]
  have hb' : arena[b]? = some bn := by simpa using hb
  have h0' : arena[s0]? = some n0 := by simpa using h0
  have h1' : arena[s1]? = some n1 := by simpa using h1
  have h2' : arena[s2]? = some n2 := by simpa using h2
  have hidx0 : [s0, s1, s2].indexOf? s0 = some 0 := by
    simp [List.indexOf?_cons]
  have hidx1 : [s0, s1, s2].indexOf? s1 = some 1 := by
    simp [List.indexOf?_cons, beq_eq_false_iff_ne.mpr hd01]
  have hidx2 : [s0, s1, s2].indexOf? s2 = some 2 := by
    simp [List.indexOf?_cons, beq_eq_false_iff_ne.mpr hd02,
      beq_eq_false_iff_ne.mpr hd12]
  refine ⟨?_, ?_, ?_, ?_⟩
  · simp [nextSibling, hclimb s1 n1 h1 h1s, h1', h1p, hb', hbn, hidx1]
  · simp [previousSibling, hclimb s1 n1 h1 h1s, h1', h1p, hb', hbn, hidx1]
  · simp [previousSibling, hclimb s0 n0 h0 h0s, h0', h0p, hb', hbn, hidx0]
  · simp [nextSibling, hclimb s2 n2 h2 h2s, h2', h2p, hb', hbn, hidx2]

/-- Witness for C8 on the concrete four-node arena: block at index 0 with
statement children 1, 2, 3. -/
theorem c8_sibling_navigation_witness :
    nextSibling [⟨false, none, [1, 2, 3]⟩, ⟨true, some 0, []⟩,
        ⟨true, some 0, []⟩, ⟨true, some 0, []⟩] 2 = some 3 ∧
    previousSibling [⟨false, none, [1, 2, 3]⟩, ⟨true, some 0, []⟩,
        ⟨true, some 0, []⟩, ⟨true, some 0, []⟩] 2 = some 1 ∧
    previousSibling [⟨false, none, [1, 2, 3]⟩, ⟨true, some 0, []⟩,
        ⟨true, some 0, []⟩, ⟨true, some 0, []⟩] 1 = none ∧
    nextSibling [⟨false, none, [1, 2, 3]⟩, ⟨true, some 0, []⟩,
        ⟨true, some 0, []⟩, ⟨true, some 0, []⟩] 3 = none :=
  c8_sibling_navigation
    [⟨false, none, [1, 2, 3]⟩, ⟨true, some 0, []⟩, ⟨true, some 0, []⟩,
      ⟨true, some 0, []⟩] 0 1 2 3
    ⟨false, none, [1, 2, 3]⟩ ⟨true, some 0, []⟩ ⟨true, some 0, []⟩
    ⟨true, some 0, []⟩
    rfl rfl rfl rfl rfl rfl rfl rfl rfl rfl rfl
    (by decide) (by decide) (by decide)

/-- A runtime value in the fragment of the object model the `Yes`
sentinel claims concern: the `YES` singleton itself or some other
object. -/
inductive PyVal where
  | yes
  | obj (n : Nat)
deriving Repr, DecidableEq

/-- The special methods the `Yes` class defines (`nodes.py` lines
687-694): `__repr__`, `__getattribute__` and `__call__` — and nothing
else; in particular neither `__iter__` nor `__getitem__`. -/
def yesClassMethodNames : List String := ["__repr__", "__getattribute__", "__call__"]

/-- Body of `Yes.__getattribute__(self, name)`: `return self`. -/
def yesGetattributeBody (self : PyVal) (_name : String) : PyVal := self

/-- Body of `Yes.__call__(self, *args, **kwargs)`: `return self`. -/
def yesCallBody (self : PyVal) (_args : List PyVal)
    (_kwargs : List (String × PyVal)) : PyVal := self

/-- Attribute access `v.name` on an instance of the (new-style) `Yes`
class: the interpreter dispatches through the type's
`__getattribute__` slot, which `Yes` overrides to return `self`. -/
def pyGetattr (self : PyVal) (name : String) : Except String PyVal :=
  if "__getattribute__" ∈ yesClassMethodNames then
    Except.ok (yesGetattributeBody self name)
  else Except.error "AttributeError"

/-- Calling `v(*args, **kwargs)` on an instance of `Yes`: dispatch
through the type's `__call__` slot, which `Yes` defines to return
`self`. -/
def pyCall (self : PyVal) (args : List PyVal)
    (kwargs : List (String × PyVal)) : Except String PyVal :=
  if "__call__" ∈ yesClassMethodNames then
    Except.ok (yesCallBody self args kwargs)
  else Except.error "TypeError"

/-- Iterating over an instance of `Yes`: implicit special-method lookup
searches `__iter__`, then the sequence fallback `__getitem__`, on the
type only — it never goes through the instance's `__getattribute__`.
The success branches (returning the receiver's iterator, abstracted as
the receiver) are unreachable for `Yes`, which defines neither method,
so iteration raises `TypeError`. -/
def pyIter (self : PyVal) : Except String PyVal :=
  if "__iter__" ∈ yesClassMethodNames then Except.ok self
  else if "__getitem__" ∈ yesClassMethodNames then Except.ok self
  else Except.error "TypeError"

/-- C9 counterexample: iterating over `YES` does not yield `YES`; it
raises `TypeError`, because the `Yes` class defines neither `__iter__`
nor `__getitem__`, and the interpreter's iteration protocol looks these
up on the type without consulting the instance's `__getattribute__`.
This refutes the claim's conjunct that iterating over `YES` yields
`YES`. -/
theorem c9_yes_counterexample :
    pyIter PyVal.yes = Except.error "TypeError" ∧
    pyIter PyVal.yes ≠ Except.ok PyVal.yes := by
  exact ⟨rfl, by simp [pyIter, yesClassMethodNames]⟩

/-- C9 amended: `YES` absorbs attribute access and calls — every
attribute access on `YES` returns `YES` itself and calling `YES` with
any arguments returns `YES` — but iterating over `YES` is not
supported and raises `TypeError` rather than yielding `YES`. -/
theorem c9_yes_absorbing (name : String) (args : List PyVal)
    (kwargs : List (String × PyVal)) :
    pyGetattr PyVal.yes name = Except.ok PyVal.yes ∧
    pyCall PyVal.yes args kwargs = Except.ok PyVal.yes ∧
    pyIter PyVal.yes = Except.error "TypeError" :=
  ⟨rfl, rfl, rfl⟩

/-- A Python constant value as handled by `const_factory`: `None`,
booleans, machine integers, strings. -/
inductive PyConst where
  | none
  | bool (b : Bool)
  | int (n : Int)
  | str (s : String)
deriving Repr, DecidableEq

/-- Python `==` on these constants: booleans compare equal to the
integers 1 and 0 (`True == 1`, `False == 0`), `None` only to itself. -/
def pyEq : PyConst → PyConst → Bool
  | PyConst.none, PyConst.none => true
  | PyConst.bool a, PyConst.bool b => a == b
  | PyConst.bool a, PyConst.int n => (if a then (1 : Int) else 0) == n
  | PyConst.int n, PyConst.bool a => n == (if a then (1 : Int) else 0)
  | PyConst.int m, PyConst.int n => m == n
  | PyConst.str s, PyConst.str t => s == t
  | _, _ => false

/-- The two proxy-bearing node classes of the transform table:
`NoneType` and `Bool` (`nodes.py` lines 804-826). -/
inductive ConstCls where
  | noneType
  | boolCls
deriving Repr, DecidableEq

/-- Embedding of `CONST_VALUE_TRANSFORMS` (`nodes.py` lines 831-833):
`{None: (NoneType, None), True: (Bool, True), False: (Bool, False)}`. -/
def CONST_VALUE_TRANSFORMS : List (PyConst × ConstCls × PyConst) :=
  [(PyConst.none, ConstCls.noneType, PyConst.none),
   (PyConst.bool true, ConstCls.boolCls, PyConst.bool true),
   (PyConst.bool false, ConstCls.boolCls, PyConst.bool false)]

/-- Python dict indexing `CONST_VALUE_TRANSFORMS[value]`: the entry
whose key compares `==`-equal to the probe (booleans hash and compare
equal to 1 and 0, so the probes 1 and 0 hit the `True`/`False` keys);
`none` models the `KeyError` branch. -/
def constValueLookup (k : PyConst) : Option (ConstCls × PyConst) :=
  (CONST_VALUE_TRANSFORMS.find? (fun e => pyEq e.1 k)).map (fun e => e.2)

/-- The node `const_factory` returns: a `NoneType` proxy node, a `Bool`
proxy node, or the result of the external generic `_const_factory`
(which lives in the `_nodes_ast`/`_nodes_compiler` module, outside this
file, and is kept opaque). -/
inductive ConstNode where
  | noneNode (value : PyConst)
  | boolNode (value : PyConst)
  | generic (value : PyConst)
deriving Repr, DecidableEq

/-- `cls(value)` for a class taken from the transform table. -/
def mkConstNode : ConstCls → PyConst → ConstNode
  | ConstCls.noneType, v => ConstNode.noneNode v
  | ConstCls.boolCls, v => ConstNode.boolNode v

/-- Embedding of `const_factory` (`nodes.py` lines 232-238): look the
value up in `CONST_VALUE_TRANSFORMS` and build the transformed node
from the stored class and value; on `KeyError` fall back to the generic
`_const_factory`. -/
def const_factory (value : PyConst) : ConstNode :=
  match constValueLookup value with
  | some (cls, v) => mkConstNode cls v
  | none => ConstNode.generic value

/-- C10: `const_factory` matches the transform table by value equality:
the integer 1 hits the `True` key and produces a `Bool` proxy node
carrying `True`, the integer 0 hits the `False` key and produces a
`Bool` proxy node carrying `False`; and the generic constant factory is
used exactly for values `==`-equal to none of `None`, `True`, `False`. -/
theorem c10_const_factory_value_equality :
    const_factory (PyConst.int 1) = ConstNode.boolNode (PyConst.bool true) ∧
    const_factory (PyConst.int 0) = ConstNode.boolNode (PyConst.bool false) ∧
    (∀ v, const_factory v = ConstNode.generic v ↔
      (pyEq PyConst.none v = false ∧ pyEq (PyConst.bool true) v = false ∧
       pyEq (PyConst.bool false) v = false)) := by
  refine ⟨rfl, rfl, ?_⟩
  intro v
  rw [const_factory, constValueLookup, CONST_VALUE_TRANSFORMS]
  cases h1 : pyEq PyConst.none v <;> cases h2 : pyEq (PyConst.bool true) v <;>
    cases h3 : pyEq (PyConst.bool false) v <;>
      simp [h1, h2, h3, mkConstNode]

/-- Witness for C10's generic-fallback direction at a concrete value:
the string "a" equals none of the table keys, so it goes to the generic
factory. -/
theorem c10_const_factory_value_equality_witness :
    const_factory (PyConst.str "a") = ConstNode.generic (PyConst.str "a") :=
  (c10_const_factory_value_equality.2.2 (PyConst.str "a")).mpr ⟨rfl, rfl, rfl⟩
